import Mathlib

/-!
Verification of the SOMVIZ core (`somviz/som.py`) against its specification.

The embedding below translates the source into Lean:
* `Grid` / `_calculate_separations` (map geometry, `som.py` lines 50-106);
* `SelfOrganizingMap.find_bmu` (batched best-matching-unit search, lines 149-176);
* `SelfOrganizingMap.fit` (both training modes, lines 178-281).

Machine floats are modelled by exact arithmetic: `ℚ` where the code only
adds/multiplies/compares, `ℝ` where the code takes `sqrt`, `exp` or a real
power.  The seeded `np.random.RandomState` generator is an external
collaborator; its draw sequences enter the embedding as explicit function
parameters (`randInit` for the initialisation draws, `choice` for the
per-epoch `rng.choice` index draws), so that a run is a pure function of
(data, hyperparameters, draw streams).
-/

namespace Somviz


/-- The `Grid` object of `som.py`: `_shape` (absolute values of the
signature), `_wrap` (negative signature entries), `_metric`. -/
structure GridT where
  shape : List ℕ
  wrap : List Bool
  metric : String
  deriving Repr, DecidableEq

/-- `Grid.size`: the flattened size, `np.empty(shape).size = prod shape`. -/
def GridT.size (g : GridT) : ℕ := g.shape.prod

/-- `Grid.__init__` (som.py lines 52-67): shape from absolute values of the
signature, wrap flags from negative entries, and the metric is validated
against `('L0', 'L1', 'L2')`; an invalid metric raises `ValueError`. -/
def gridInit (signature : List ℤ) (metric : String) : Except String GridT :=
  if metric = "L0" ∨ metric = "L1" ∨ metric = "L2" then
    Except.ok ⟨signature.map Int.natAbs, signature.map (fun k => decide (k < 0)), metric⟩
  else
    Except.error "Invalid metric, should be one of L0, L1, L2."

/-- The `k`-th C-order coordinate of flat node index `i` for the given grid
shape (this is how numpy's `reshape`/broadcast in `_calculate_separations`
associates flat indices with per-axis indices). -/
def coordOf (shape : List ℕ) (k i : ℕ) : ℕ :=
  (i / (shape.drop (k + 1)).prod) % shape.getD k 0

/-- Per-axis integer separation (som.py lines 86-93): `dxk = |xi - xj|`,
and on a wrapping axis any difference exceeding `nk // 2` is replaced by
`nk - dxk`. -/
def axisSep (nk : ℕ) (wrapk : Bool) (a b : ℕ) : ℕ :=
  let d := ((a : ℤ) - (b : ℤ)).natAbs
  if wrapk then (if d > nk / 2 then nk - d else d) else d

/-- The per-axis accumulation loop of `_calculate_separations`
(som.py lines 85-102): starting from zeros, each axis contributes
`dxk ** 2` (L2, summed), `dxk` (L1, summed) or `dxk` (L0, elementwise
maximum).  Entry `(i, j)` of the flattened `size × size` matrix before the
final L2 square root. -/
def sepAccum (metric : String) (shape : List ℕ) (wrap : List Bool) (i j : ℕ) : ℕ :=
  (List.range shape.length).foldl
    (fun acc k =>
      let d := axisSep (shape.getD k 0) (wrap.getD k false)
        (coordOf shape k i) (coordOf shape k j)
      if metric = "L2" then acc + d ^ 2
      else if metric = "L1" then acc + d
      else if metric = "L0" then max acc d
      else acc) 0

/-- `Grid._calculate_separations` (som.py lines 81-106): the accumulated
per-axis contributions, with an in-place square root at the end for L2. -/
noncomputable def separations (g : GridT) (i j : ℕ) : ℝ :=
  if g.metric = "L2" then Real.sqrt (sepAccum g.metric g.shape g.wrap i j)
  else (sepAccum g.metric g.shape g.wrap i j : ℝ)

/-- `np.argmin` over a 1-D array: index of the first occurrence of the
minimal value (0 on an empty list; numpy raises there). -/
def argminList {α : Type} [LinearOrder α] : List α → ℕ
  | [] => 0
  | x :: xs =>
    match xs with
    | [] => 0
    | _ :: _ =>
      let j := argminList xs
      if x ≤ xs.getD j x then 0 else j + 1

/-- The vector of squared Euclidean data-space distances between one data
row and every prototype: `np.sum(buf ** 2, axis=1)` for that row in
`find_bmu` (som.py lines 171-174).  `row d` is feature `d` of the sample and
`weights d w` is feature `d` of prototype `w`. -/
def distsqRow (D W : ℕ) (row : ℕ → ℚ) (weights : ℕ → ℕ → ℚ) : List ℚ :=
  (List.range W).map (fun w => ((List.range D).map (fun d => (row d - weights d w) ^ 2)).sum)

/-- `SelfOrganizingMap.find_bmu` (som.py lines 149-176): loop over
`nbatch = (N + batchsize - 1) // batchsize` mini-batches; for the rows
`ilo ≤ i < ihi` of each batch, fill the distance buffer
(`buf = data - weights`, squared, summed over features) and take the
per-row `np.argmin` over prototypes.  Rows of the preallocated buffer past
`ihi - ilo` in the final batch hold stale values but are never read for the
output, which slices `distsq[:ihi-ilo]`. -/
def find_bmu (N D W : ℕ) (data : ℕ → ℕ → ℚ) (weights : ℕ → ℕ → ℚ)
    (batchsize : ℕ) : List ℕ :=
  let nbatch := (N + batchsize - 1) / batchsize
  ((List.range nbatch).map (fun ibatch =>
    let ilo := ibatch * batchsize
    let ihi := min (ilo + batchsize) N
    (List.range (ihi - ilo)).map
      (fun r => argminList (distsqRow D W (data (ilo + r)) weights)))).flatten

/-- The full `SelfOrganizingMap` instance state: the attributes a trained
map carries in `som.py` (`_mapgeom`, `_weights` with its `(D, size)` shape,
`_loss`, `data`, `_indices`).  `find_bmu` asserts that the feature
dimension of its argument equals the weight matrix's first dimension, so
the method below uses the instance's `D`. -/
structure SOMInstance where
  mapgeom : GridT
  D : ℕ
  W : ℕ
  weights : ℕ → ℕ → ℚ
  loss : List ℚ
  dataAttr : ℕ → ℕ → ℚ
  indices : List ℕ

/-- `find_bmu` as a method call on the instance: it reads `self._weights`
and returns the BMU vector; the instance after the call is returned so the
frame effect can be stated.  The body of `find_bmu` (som.py lines 149-176)
assigns only the locals `bmu`, `nbatch`, `S`, `buf`, `distsq` — no
attribute of `self` is written. -/
def find_bmu_method (s : SOMInstance) (N : ℕ) (data : ℕ → ℕ → ℚ)
    (batchsize : ℕ) : List ℕ × SOMInstance :=
  (find_bmu N s.D s.W data s.weights batchsize, s)

/-- All entries of the flattened `size × size` separations matrix. -/
noncomputable def sepEntries (g : GridT) : List ℝ :=
  ((List.range g.size).map (fun i =>
    (List.range g.size).map (fun j => separations g i j))).flatten

/-- `sigma0 = np.max(self._mapgeom.separations)` (som.py line 214).  The
entries are non-negative, so folding `max` from 0 gives the matrix maximum
(numpy raises on an empty matrix, i.e. `size = 0`). -/
noncomputable def maxSep (g : GridT) : ℝ := (sepEntries g).foldl max 0

/-- `sigma_single = np.min(separations[separations > 0])` (som.py
line 215), the smallest strictly-positive separation; 0 when no entry is
positive (numpy raises in that case). -/
noncomputable def minPosSep (g : GridT) : ℝ :=
  (((sepEntries g).filter (fun x => decide (0 < x))).min?).getD 0

/-- `large_scale = np.mean(self._mapgeom.separations)` (som.py line 251). -/
noncomputable def meanSep (g : GridT) : ℝ :=
  (sepEntries g).sum / ((g.size : ℝ) * (g.size : ℝ))

/-- `alpha = aps * (ape / aps) ** (tt / nt)` with `aps = 0.8`, `ape = 0.5`
(som.py lines 216-217, 221), a real power. -/
noncomputable def somzAlpha (tt nt : ℕ) : ℝ :=
  (4 / 5) * ((1 / 2) / (4 / 5)) ^ ((tt : ℝ) / (nt : ℝ))

/-- `sigma = sigma0 * (sigma_single / sigma0) ** (tt / nt)`
(som.py line 222). -/
noncomputable def somzSigma (sigma0 sigmaSingle : ℝ) (tt nt : ℕ) : ℝ :=
  sigma0 * (sigmaSingle / sigma0) ^ ((tt : ℝ) / (nt : ℝ))

/-- The squared data-space distances from a sample to every prototype,
`np.sum(dx ** 2, axis=0)` (som.py line 228 and 267), over ℝ. -/
noncomputable def distsqRowR (D W : ℕ) (x : ℕ → ℝ) (wts : ℕ → ℕ → ℝ) : List ℝ :=
  (List.range W).map (fun w => ((List.range D).map (fun d => (x d - wts d w) ^ 2)).sum)

/-- One per-sample update of the SOMz branch (som.py lines 224-232):
`dx = x - weights`, `best = argmin(distsq)`,
`h = exp(-(separations[best] ** 2) / sigma ** 2)`,
loss contribution `sqrt(distsq)[best]`, `weights += alpha * h * dx`.
Returns the updated weights and the loss contribution. -/
noncomputable def somzStep (sep : ℕ → ℕ → ℝ) (Wn D : ℕ) (alpha sigma : ℝ)
    (x : ℕ → ℝ) (wts : ℕ → ℕ → ℝ) : (ℕ → ℕ → ℝ) × ℝ :=
  let dx : ℕ → ℕ → ℝ := fun d w => x d - wts d w
  let distsq := distsqRowR D Wn x wts
  let best := argminList distsq
  let h : ℕ → ℝ := fun w => Real.exp (-((sep best w) ^ 2) / sigma ^ 2)
  (fun d w => wts d w + alpha * h w * dx d w, Real.sqrt (distsq.getD best 0))

/-- Modelled from the spec: the amended SOMz per-sample rule, incrementing
every prototype by `alpha * exp(-(map_space_distance_to_BMU / sigma)^2) *
difference_vector` (no 0.5 factor in the exponent). -/
noncomputable def somzStepAmended (sep : ℕ → ℕ → ℝ) (Wn D : ℕ) (alpha sigma : ℝ)
    (x : ℕ → ℝ) (wts : ℕ → ℕ → ℝ) : (ℕ → ℕ → ℝ) × ℝ :=
  let dx : ℕ → ℕ → ℝ := fun d w => x d - wts d w
  let distsq := distsqRowR D Wn x wts
  let best := argminList distsq
  (fun d w => wts d w + alpha * Real.exp (-((sep best w / sigma) ^ 2)) * dx d w,
   Real.sqrt (distsq.getD best 0))

/-- One per-sample update of the default branch (som.py lines 263-273):
`bmu = argmin(distsq)`, loss contribution `sqrt(distsq[bmu])`,
`weights += learn_rate * exp(-0.5 * (dz / gauss_width) ** 2) * dx` with
`dz = separations[bmu]`. -/
noncomputable def modeAStep (sep : ℕ → ℕ → ℝ) (Wn D : ℕ) (learnRate gaussWidth : ℝ)
    (x : ℕ → ℝ) (wts : ℕ → ℕ → ℝ) : (ℕ → ℕ → ℝ) × ℝ :=
  let dx : ℕ → ℕ → ℝ := fun d w => x d - wts d w
  let distsq := distsqRowR D Wn x wts
  let bmu := argminList distsq
  let dz : ℕ → ℝ := fun w => sep bmu w
  (fun d w => wts d w + learnRate * Real.exp (-(1 / 2) * (dz w / gaussWidth) ^ 2) * dx d w,
   Real.sqrt (distsq.getD bmu 0))

/-- One epoch of per-sample updates over the drawn batch, accumulating the
epoch loss from 0. -/
noncomputable def epochFold (step : (ℕ → ℝ) → (ℕ → ℕ → ℝ) → (ℕ → ℕ → ℝ) × ℝ)
    (data : ℕ → ℕ → ℝ) (batch : List ℕ) (wts : ℕ → ℕ → ℝ) : (ℕ → ℕ → ℝ) × ℝ :=
  batch.foldl (fun st idx =>
    let r := step (data idx) st.1
    (r.1, st.2 + r.2)) (wts, 0)

/-- SOMz-mode weight initialisation (som.py line 203):
`weights = rng.rand(D, size) + data[0, 0]`; `randInit` is the uniform draw
matrix produced by the seeded generator. -/
noncomputable def somzInitW (data randInit : ℕ → ℕ → ℝ) : ℕ → ℕ → ℝ :=
  fun d w => randInit d w + data 0 0

/-- `np.mean` of data column `d`. -/
noncomputable def meanCol (N : ℕ) (data : ℕ → ℕ → ℝ) (d : ℕ) : ℝ :=
  (((List.range N).map (fun i => data i d)).sum) / (N : ℝ)

/-- `np.std` (ddof = 0) of data column `d`. -/
noncomputable def stdCol (N : ℕ) (data : ℕ → ℕ → ℝ) (d : ℕ) : ℝ :=
  Real.sqrt ((((List.range N).map (fun i => (data i d - meanCol N data d) ^ 2)).sum) / (N : ℝ))

/-- Default-mode weight initialisation (som.py line 206):
`weights = np.std(data, axis=0, keepdims=True).T * rng.normal(size=(D, size))`;
`randInit` is the normal draw matrix produced by the seeded generator. -/
noncomputable def modeAInitW (N : ℕ) (data randInit : ℕ → ℕ → ℝ) : ℕ → ℕ → ℝ :=
  fun d w => stdCol N data d * randInit d w

/-- The SOMz training loop (som.py lines 211-234) run for `epochs` epochs
of the schedule that `maxiter` and `N` fix through `nt = maxiter * N`.
State: (weights, loss history, step counter `tt`).  `tt` starts at 0 and is
passed through every epoch unchanged: the active loop body never executes
`tt += 1` (an increment appears only inside the commented-out string
literal at som.py lines 236-247).  `choice it` is the index list drawn by
`rng.choice(N, batch_size)` for epoch `it`. -/
noncomputable def fitSomzAux (g : GridT) (N D maxiter : ℕ) (data : ℕ → ℕ → ℝ)
    (randInit : ℕ → ℕ → ℝ) (choice : ℕ → List ℕ) (epochs : ℕ) :
    (ℕ → ℕ → ℝ) × List ℝ × ℕ :=
  let nt := maxiter * N
  (List.range epochs).foldl
    (fun st (it : ℕ) =>
      let tt := st.2.2
      let alpha := somzAlpha tt nt
      let sigma := somzSigma (maxSep g) (minPosSep g) tt nt
      let r := epochFold (somzStep (separations g) g.size D alpha sigma)
        data (choice it) st.1
      (r.1, st.2.1 ++ [r.2], tt))
    (somzInitW data randInit, [], 0)

/-- `fit` with `somz=True` (after the weight initialisation): the full
`maxiter`-epoch run. -/
noncomputable def fitSomz (g : GridT) (N D maxiter : ℕ) (data : ℕ → ℕ → ℝ)
    (randInit : ℕ → ℕ → ℝ) (choice : ℕ → List ℕ) :
    (ℕ → ℕ → ℝ) × List ℝ × ℕ :=
  fitSomzAux g N D maxiter data randInit choice maxiter

/-- The default training loop (som.py lines 249-275) run for `epochs`
epochs: `learn_rate = eta ** (i / maxiter)`,
`gauss_width = 0.5 * large_scale ** (1 - i / maxiter)`, per-sample Gaussian
neighborhood updates over the drawn batch.  State: (weights, loss
history). -/
noncomputable def fitModeAAux (g : GridT) (N D maxiter : ℕ) (eta : ℝ)
    (data : ℕ → ℕ → ℝ) (randInit : ℕ → ℕ → ℝ) (choice : ℕ → List ℕ)
    (epochs : ℕ) : (ℕ → ℕ → ℝ) × List ℝ :=
  (List.range epochs).foldl
    (fun st (i : ℕ) =>
      let learnRate := eta ^ ((i : ℝ) / (maxiter : ℝ))
      let gaussWidth := (1 / 2) * meanSep g ^ (1 - (i : ℝ) / (maxiter : ℝ))
      let r := epochFold (modeAStep (separations g) g.size D learnRate gaussWidth)
        data (choice i) st.1
      (r.1, st.2 ++ [r.2]))
    (modeAInitW N data randInit, [])

/-- `fit` with `somz=False` (after the weight initialisation): the full
`maxiter`-epoch run. -/
noncomputable def fitModeA (g : GridT) (N D maxiter : ℕ) (eta : ℝ)
    (data : ℕ → ℕ → ℝ) (randInit : ℕ → ℕ → ℝ) (choice : ℕ → List ℕ) :
    (ℕ → ℕ → ℝ) × List ℝ :=
  fitModeAAux g N D maxiter eta data randInit choice maxiter

lemma axisSep_symm (nk : ℕ) (w : Bool) (a b : ℕ) :
    axisSep nk w a b = axisSep nk w b a := by
  unfold axisSep
  have h : ((a : ℤ) - b).natAbs = ((b : ℤ) - a).natAbs := by omega
  rw [h]

lemma axisSep_self (nk : ℕ) (w : Bool) (a : ℕ) : axisSep nk w a a = 0 := by
  unfold axisSep
  simp

lemma sepAccum_symm (metric : String) (shape : List ℕ) (wrap : List Bool) (i j : ℕ) :
    sepAccum metric shape wrap i j = sepAccum metric shape wrap j i := by
  unfold sepAccum
  apply List.foldl_ext
  intro acc k _
  rw [axisSep_symm]

lemma sepAccum_self (metric : String) (shape : List ℕ) (wrap : List Bool) (i : ℕ) :
    sepAccum metric shape wrap i i = 0 := by
  unfold sepAccum
  have h : ∀ (l : List ℕ) (acc : ℕ),
      l.foldl (fun acc k =>
        let d := axisSep (shape.getD k 0) (wrap.getD k false)
          (coordOf shape k i) (coordOf shape k i)
        if metric = "L2" then acc + d ^ 2
        else if metric = "L1" then acc + d
        else if metric = "L0" then max acc d
        else acc) acc = acc := by
    intro l
    induction l with
    | nil => intro acc; rfl
    | cons x xs ih =>
      intro acc
      simp only [List.foldl_cons, axisSep_self]
      split_ifs <;> simp [ih]
  exact h _ 0

lemma axisSep_wrap_eq_min (n : ℕ) (i j : ℕ) (hi : i < n) (hj : j < n) :
    axisSep n true i j =
      min (((i : ℤ) - j).natAbs) (n - ((i : ℤ) - j).natAbs) := by
  unfold axisSep
  simp only [if_pos rfl]
  split_ifs with h <;> omega

lemma sepAccum_1d (n : ℕ) (mm : String) (i j : ℕ) (hi : i < n) (hj : j < n) :
    sepAccum mm [n] [true] i j =
      (if mm = "L2" then (axisSep n true i j) ^ 2
       else if mm = "L1" then axisSep n true i j
       else if mm = "L0" then axisSep n true i j
       else 0) := by
  have hco : ∀ a : ℕ, a < n → coordOf [n] 0 a = a := by
    intro a ha
    unfold coordOf
    simp [Nat.mod_eq_of_lt ha]
  unfold sepAccum
  have hr : List.range ([n] : List ℕ).length = [0] := rfl
  rw [hr]
  simp only [List.foldl_cons, List.foldl_nil, hco i hi, hco j hj]
  split_ifs <;> simp

lemma argminList_lt_length {α : Type} [LinearOrder α] (l : List α) (hl : l ≠ []) :
    argminList l < l.length := by
  induction l with
  | nil => simp at hl
  | cons x xs ih =>
    cases xs with
    | nil => simp [argminList]
    | cons y ys =>
      rw [argminList]
      split_ifs
      · simp
      · have := ih (by simp)
        simpa [Nat.succ_lt_succ_iff] using this

lemma List.getD_indep {α : Type} (l : List α) (n : ℕ) (hn : n < l.length) (d d' : α) :
    l.getD n d = l.getD n d' := by
  rw [List.getD_eq_getElem l d hn, List.getD_eq_getElem l d' hn]

lemma argminList_le {α : Type} [LinearOrder α] (l : List α) (d : α) :
    ∀ k < l.length, l.getD (argminList l) d ≤ l.getD k d := by
  induction l with
  | nil => intro k hk; simp at hk
  | cons x xs ih =>
    intro k hk
    cases xs with
    | nil =>
      simp only [List.length_cons, List.length_nil] at hk
      have hk0 : k = 0 := by omega
      subst hk0
      simp [argminList]
    | cons y ys =>
      have hjlen : argminList (y :: ys) < (y :: ys).length :=
        argminList_lt_length (y :: ys) (by simp)
      rw [argminList]
      split_ifs with hx
      · -- head is ≤ the minimum of the tail, argmin = 0
        cases k with
        | zero => simp
        | succ m =>
          simp only [List.getD_cons_zero, List.getD_cons_succ]
          have hm : m < (y :: ys).length := by simpa [Nat.succ_lt_succ_iff] using hk
          calc x ≤ (y :: ys).getD (argminList (y :: ys)) x := hx
            _ = (y :: ys).getD (argminList (y :: ys)) d := List.getD_indep _ _ hjlen _ _
            _ ≤ (y :: ys).getD m d := ih m hm
      · cases k with
        | zero =>
          simp only [List.getD_cons_succ, List.getD_cons_zero]
          push_neg at hx
          calc (y :: ys).getD (argminList (y :: ys)) d
              = (y :: ys).getD (argminList (y :: ys)) x := List.getD_indep _ _ hjlen _ _
            _ ≤ x := le_of_lt hx
        | succ m =>
          simp only [List.getD_cons_succ]
          have hm : m < (y :: ys).length := by simpa [Nat.succ_lt_succ_iff] using hk
          exact ih m hm

lemma argminList_first {α : Type} [LinearOrder α] (l : List α) (d : α) :
    ∀ k < argminList l, l.getD (argminList l) d < l.getD k d := by
  induction l with
  | nil => intro k hk; simp [argminList] at hk
  | cons x xs ih =>
    intro k hk
    cases xs with
    | nil => simp [argminList] at hk
    | cons y ys =>
      have hjlen : argminList (y :: ys) < (y :: ys).length :=
        argminList_lt_length (y :: ys) (by simp)
      rw [argminList] at hk ⊢
      split_ifs at hk ⊢ with hx
      · omega
      · push_neg at hx
        cases k with
        | zero =>
          simp only [List.getD_cons_succ, List.getD_cons_zero]
          calc (y :: ys).getD (argminList (y :: ys)) d
              = (y :: ys).getD (argminList (y :: ys)) x := List.getD_indep _ _ hjlen _ _
            _ < x := hx
        | succ m =>
          simp only [List.getD_cons_succ]
          exact ih m (by omega)

lemma batched_range (N b : ℕ) (hb : 1 ≤ b) :
    ((List.range ((N + b - 1) / b)).map (fun ib =>
      (List.range (min (ib * b + b) N - ib * b)).map (fun r => ib * b + r))).flatten
    = List.range N := by
  have key : ∀ m : ℕ,
      ((List.range m).map (fun ib =>
        (List.range (min (ib * b + b) N - ib * b)).map (fun r => ib * b + r))).flatten
      = List.range (min (m * b) N) := by
    intro m
    induction m with
    | zero => simp
    | succ m ih =>
      have hs : (m + 1) * b = m * b + b := by ring
      rw [List.range_succ, List.map_append, List.flatten_append, ih, hs]
      simp only [List.map_cons, List.map_nil, List.flatten_cons, List.flatten_nil,
        List.append_nil]
      by_cases hmN : N ≤ m * b
      · have h1 : min (m * b) N = N := by omega
        have h2 : min (m * b + b) N - m * b = 0 := by omega
        have h3 : min (m * b + b) N = N := by omega
        rw [h1, h2, h3]
        simp
      · push_neg at hmN
        have h1 : min (m * b) N = m * b := by omega
        have h2 : min (m * b + b) N = m * b + (min (m * b + b) N - m * b) := by omega
        rw [h1]
        conv_rhs => rw [h2]
        rw [List.range_add]
  have hge : N ≤ ((N + b - 1) / b) * b := by
    have hdm := Nat.div_add_mod (N + b - 1) b
    have hlt : (N + b - 1) % b < b := Nat.mod_lt _ (by omega)
    have hcm : b * ((N + b - 1) / b) = ((N + b - 1) / b) * b := Nat.mul_comm _ _
    omega
  rw [key]
  congr 1
  omega

lemma find_bmu_eq_map (N D W : ℕ) (data weights : ℕ → ℕ → ℚ) (b : ℕ) (hb : 1 ≤ b) :
    find_bmu N D W data weights b =
      (List.range N).map (fun i => argminList (distsqRow D W (data i) weights)) := by
  unfold find_bmu
  have hib : ∀ ib : ℕ,
      (List.range (min (ib * b + b) N - ib * b)).map
        (fun r => argminList (distsqRow D W (data (ib * b + r)) weights))
      = ((List.range (min (ib * b + b) N - ib * b)).map (fun r => ib * b + r)).map
          (fun i => argminList (distsqRow D W (data i) weights)) := by
    intro ib
    rw [List.map_map]
    rfl
  simp only [hib]
  have hcomp :
      List.map (fun ib =>
        ((List.range (min (ib * b + b) N - ib * b)).map (fun r => ib * b + r)).map
          (fun i => argminList (distsqRow D W (data i) weights)))
        (List.range ((N + b - 1) / b))
      = List.map (List.map (fun i => argminList (distsqRow D W (data i) weights)))
          (List.map (fun ib => (List.range (min (ib * b + b) N - ib * b)).map
            (fun r => ib * b + r)) (List.range ((N + b - 1) / b))) := by
    rw [List.map_map]
    rfl
  rw [hcomp, ← List.map_flatten, batched_range N b hb]

lemma getD_map_range {α : Type} (N : ℕ) (f : ℕ → α) (i : ℕ) (hi : i < N) (d : α) :
    (((List.range N).map f).getD i d) = f i := by
  have hlen : i < ((List.range N).map f).length := by simpa using hi
  rw [List.getD_eq_getElem _ _ hlen]
  simp

lemma fitSomzAux_tt (g : GridT) (N D maxiter : ℕ) (data : ℕ → ℕ → ℝ)
    (randInit : ℕ → ℕ → ℝ) (choice : ℕ → List ℕ) (epochs : ℕ) :
    (fitSomzAux g N D maxiter data randInit choice epochs).2.2 = 0 := by
  induction epochs with
  | zero => rfl
  | succ e ih =>
    unfold fitSomzAux at ih ⊢
    rw [List.range_succ, List.foldl_append, List.foldl_cons, List.foldl_nil]
    exact ih

end Somviz

/-- C5: for every Grid (any shape, wrap flags and metric), the separations
matrix is symmetric, non-negative, and zero on the diagonal. -/
theorem separations_symm_nonneg_zero_diag (g : Somviz.GridT) (i j : ℕ) :
    Somviz.separations g i j = Somviz.separations g j i ∧
    0 ≤ Somviz.separations g i j ∧
    Somviz.separations g i i = 0 := by
  unfold Somviz.separations
  refine ⟨?_, ?_, ?_⟩
  · rw [Somviz.sepAccum_symm g.metric g.shape g.wrap i j]
  · split_ifs
    · exact Real.sqrt_nonneg _
    · positivity
  · rw [Somviz.sepAccum_self]
    split_ifs <;> simp

/-- C6: for a wrapping one-dimensional Grid of size `n` under any of the
three metrics, `separations[i][j] = min(|i-j|, n-|i-j|)` — the shortest
path around the ring. -/
theorem separations_wrap_1d (n : ℕ) (m : String)
    (hm : m = "L0" ∨ m = "L1" ∨ m = "L2") (i j : ℕ) (hi : i < n) (hj : j < n) :
    Somviz.separations ⟨[n], [true], m⟩ i j =
      ((min (((i : ℤ) - j).natAbs) (n - ((i : ℤ) - j).natAbs) : ℕ) : ℝ) := by
  have hd := Somviz.axisSep_wrap_eq_min n i j hi hj
  unfold Somviz.separations
  dsimp only
  rcases hm with hm | hm | hm <;> subst hm
  · rw [if_neg (by decide), Somviz.sepAccum_1d n "L0" i j hi hj]
    rw [if_neg (by decide), if_neg (by decide), if_pos rfl, hd]
  · rw [if_neg (by decide), Somviz.sepAccum_1d n "L1" i j hi hj]
    rw [if_neg (by decide), if_pos rfl, hd]
  · rw [if_pos rfl, Somviz.sepAccum_1d n "L2" i j hi hj]
    rw [if_pos rfl]
    push_cast
    rw [Real.sqrt_sq (Nat.cast_nonneg _)]
    exact_mod_cast congrArg Nat.cast hd

/-- Witness for C6 at a concrete input: a wrapping ring of 5 nodes under L2,
`separations[1][4] = min(3, 2) = 2`. -/
theorem separations_wrap_1d_witness :
    ("L2" = "L0" ∨ "L2" = "L1" ∨ "L2" = "L2") ∧ 1 < 5 ∧ 4 < 5 ∧
    Somviz.separations ⟨[5], [true], "L2"⟩ 1 4 =
      ((min (((1 : ℤ) - 4).natAbs) (5 - ((1 : ℤ) - 4).natAbs) : ℕ) : ℝ) :=
  ⟨by simp, by decide, by decide,
    separations_wrap_1d 5 "L2" (by simp) 1 4 (by decide) (by decide)⟩

/-- C9: constructing a Grid succeeds, storing exactly the requested metric
(never a silently substituted one), precisely when the metric is one of
L0, L1, L2; and it fails with the invalid-configuration `ValueError`
precisely when the metric is outside that set. -/
theorem grid_metric_validated (signature : List ℤ) (m : String) :
    ((∃ g : Somviz.GridT, Somviz.gridInit signature m = Except.ok g ∧ g.metric = m)
      ↔ (m = "L0" ∨ m = "L1" ∨ m = "L2")) ∧
    ((∃ e : String, Somviz.gridInit signature m = Except.error e)
      ↔ ¬(m = "L0" ∨ m = "L1" ∨ m = "L2")) := by
  unfold Somviz.gridInit
  by_cases hmem : m = "L0" ∨ m = "L1" ∨ m = "L2"
  · rw [if_pos hmem]
    refine ⟨⟨fun _ => hmem, fun _ => ⟨_, rfl, rfl⟩⟩, ?_, ?_⟩
    · intro ⟨e, he⟩
      exact absurd he (by simp)
    · intro h
      exact absurd hmem h
  · rw [if_neg hmem]
    refine ⟨⟨?_, fun h => absurd h hmem⟩, fun _ => hmem, fun _ => ⟨_, rfl⟩⟩
    intro ⟨g, hg, _⟩
    exact absurd hg (by simp)

/-- C2: `find_bmu` returns the same BMU assignment vector for every choice
of the (positive) batchsize parameter: batching is a pure memory/speed
policy with no effect on the result. -/
theorem find_bmu_batchsize_invariant (N D W : ℕ) (data weights : ℕ → ℕ → ℚ)
    (b₁ b₂ : ℕ) (h₁ : 1 ≤ b₁) (h₂ : 1 ≤ b₂) :
    Somviz.find_bmu N D W data weights b₁ = Somviz.find_bmu N D W data weights b₂ := by
  rw [Somviz.find_bmu_eq_map N D W data weights b₁ h₁,
    Somviz.find_bmu_eq_map N D W data weights b₂ h₂]

/-- Witness for C2: three samples in 2-D against two prototypes, batchsize
1 versus batchsize N = 3, identical assignment vectors. -/
theorem find_bmu_batchsize_invariant_witness :
    1 ≤ 1 ∧ 1 ≤ 3 ∧
    Somviz.find_bmu 3 2 2 (fun i d => (i : ℚ) + d) (fun d w => (d : ℚ) - w) 1 =
      Somviz.find_bmu 3 2 2 (fun i d => (i : ℚ) + d) (fun d w => (d : ℚ) - w) 3 :=
  ⟨by decide, by decide,
    find_bmu_batchsize_invariant 3 2 2 (fun i d => (i : ℚ) + d)
      (fun d w => (d : ℚ) - w) 1 3 (by decide) (by decide)⟩

/-- C4: entry `i` of the vector returned by `find_bmu` is the index of the
prototype with minimal squared-Euclidean distance to data row `i`, and any
strictly smaller index has strictly larger distance (first-index
tie-breaking, `np.argmin` semantics). -/
theorem find_bmu_first_argmin (N D W : ℕ) (data weights : ℕ → ℕ → ℚ) (b i : ℕ)
    (hb : 1 ≤ b) (hW : 1 ≤ W) (hi : i < N) :
    (Somviz.find_bmu N D W data weights b).getD i 0 < W ∧
    (∀ w < W, (Somviz.distsqRow D W (data i) weights).getD
        ((Somviz.find_bmu N D W data weights b).getD i 0) 0 ≤
      (Somviz.distsqRow D W (data i) weights).getD w 0) ∧
    (∀ w < (Somviz.find_bmu N D W data weights b).getD i 0,
      (Somviz.distsqRow D W (data i) weights).getD w 0 >
      (Somviz.distsqRow D W (data i) weights).getD
        ((Somviz.find_bmu N D W data weights b).getD i 0) 0) := by
  rw [Somviz.find_bmu_eq_map N D W data weights b hb,
    Somviz.getD_map_range N _ i hi]
  have hlen : (Somviz.distsqRow D W (data i) weights).length = W := by
    unfold Somviz.distsqRow
    simp
  have hne : Somviz.distsqRow D W (data i) weights ≠ [] := by
    intro hnil
    rw [hnil] at hlen
    simp at hlen
    omega
  refine ⟨?_, ?_, ?_⟩
  · have := Somviz.argminList_lt_length _ hne
    omega
  · intro w hw
    exact Somviz.argminList_le _ 0 w (by omega)
  · intro w hw
    exact Somviz.argminList_first _ 0 w hw

/-- Witness for C4: one 1-D sample at 0 against three prototypes at
distances 1, 0, 0 — the BMU is index 1, the first index achieving the
minimum. -/
theorem find_bmu_first_argmin_witness :
    1 ≤ 1 ∧ 1 ≤ 3 ∧ 0 < 1 ∧
    ((Somviz.find_bmu 1 1 3 (fun _ _ => 0) (fun _ w => if w = 0 then 1 else 0) 1).getD 0 0 < 3 ∧
    (∀ w < 3, (Somviz.distsqRow 1 3 (fun _ => 0) (fun _ w => if w = 0 then 1 else 0)).getD
        ((Somviz.find_bmu 1 1 3 (fun _ _ => 0) (fun _ w => if w = 0 then 1 else 0) 1).getD 0 0) 0 ≤
      (Somviz.distsqRow 1 3 (fun _ => 0) (fun _ w => if w = 0 then 1 else 0)).getD w 0) ∧
    (∀ w < (Somviz.find_bmu 1 1 3 (fun _ _ => 0) (fun _ w => if w = 0 then 1 else 0) 1).getD 0 0,
      (Somviz.distsqRow 1 3 (fun _ => 0) (fun _ w => if w = 0 then 1 else 0)).getD w 0 >
      (Somviz.distsqRow 1 3 (fun _ => 0) (fun _ w => if w = 0 then 1 else 0)).getD
        ((Somviz.find_bmu 1 1 3 (fun _ _ => 0) (fun _ w => if w = 0 then 1 else 0) 1).getD 0 0) 0)) :=
  ⟨by decide, by decide, by decide,
    find_bmu_first_argmin 1 1 3 (fun _ _ => 0) (fun _ w => if w = 0 then 1 else 0)
      1 0 (by decide) (by decide) (by decide)⟩

/-- C10: `find_bmu` is read-only on the map instance: the instance after a
call is unchanged in every attribute, and two consecutive calls on the same
data return the same assignment vector. -/
theorem find_bmu_readonly (s : Somviz.SOMInstance) (N : ℕ)
    (data : ℕ → ℕ → ℚ) (batchsize : ℕ) :
    (Somviz.find_bmu_method s N data batchsize).2 = s ∧
    (Somviz.find_bmu_method
        (Somviz.find_bmu_method s N data batchsize).2 N data batchsize).1 =
      (Somviz.find_bmu_method s N data batchsize).1 :=
  ⟨rfl, rfl⟩

/-- C1 (code behaviour at the spec's failing scenario): in SOMz mode the
step counter `tt` is still 0 after any number of epochs — the active loop
never increments it — so the learning rate used in every epoch equals the
start constant `aps = 0.8` and the neighborhood width equals `sigma0`;
neither schedule ever decays. -/
theorem fit_somz_schedule_never_decays (g : Somviz.GridT) (N D maxiter : ℕ)
    (data randInit : ℕ → ℕ → ℝ) (choice : ℕ → List ℕ) (epochs : ℕ) :
    (Somviz.fitSomzAux g N D maxiter data randInit choice epochs).2.2 = 0 ∧
    Somviz.somzAlpha
        (Somviz.fitSomzAux g N D maxiter data randInit choice epochs).2.2
        (maxiter * N) = 4 / 5 ∧
    Somviz.somzSigma (Somviz.maxSep g) (Somviz.minPosSep g)
        (Somviz.fitSomzAux g N D maxiter data randInit choice epochs).2.2
        (maxiter * N) = Somviz.maxSep g := by
  have htt := Somviz.fitSomzAux_tt g N D maxiter data randInit choice epochs
  refine ⟨htt, ?_, ?_⟩
  · rw [htt]
    unfold Somviz.somzAlpha
    norm_num
  · rw [htt]
    unfold Somviz.somzSigma
    norm_num

/-- C3 counterexample: the SOMz per-sample update is not the Mode A rule
with `alpha`/`sigma` substituted for `learn_rate`/`gauss_width`.  With one
feature, two prototypes at the origin, sample 1, `alpha = 0.8`,
`sigma = 1` and map separations `(0, 1)` from the BMU, the SOMz update of
prototype 1 is `0.8·exp(-1)` while the claimed rule gives
`0.8·exp(-1/2)`. -/
theorem somz_update_kernel_counterexample :
    (Somviz.somzStep (fun _ w => if w = 0 then 0 else 1) 2 1 (4 / 5) 1
        (fun _ => 1) (fun _ _ => 0)).1 0 1 ≠
    (Somviz.modeAStep (fun _ w => if w = 0 then 0 else 1) 2 1 (4 / 5) 1
        (fun _ => 1) (fun _ _ => 0)).1 0 1 := by
  unfold Somviz.somzStep Somviz.modeAStep Somviz.distsqRowR Somviz.argminList
  norm_num [List.range_succ]

/-- C3 amended: the SOMz per-sample update increments every prototype by
`alpha * exp(-(map_space_distance_to_BMU / sigma)^2) * difference_vector`
(the Gaussian kernel without the 0.5 factor Mode A uses), with the same
BMU selection and the same loss contribution. -/
theorem somz_update_matches_amended (sep : ℕ → ℕ → ℝ) (Wn D : ℕ)
    (alpha sigma : ℝ) (x : ℕ → ℝ) (wts : ℕ → ℕ → ℝ) :
    Somviz.somzStep sep Wn D alpha sigma x wts =
      Somviz.somzStepAmended sep Wn D alpha sigma x wts := by
  have harg : ∀ s : ℝ, -(s ^ 2) / sigma ^ 2 = -((s / sigma) ^ 2) := by
    intro s
    rw [div_pow]
    ring
  unfold Somviz.somzStep Somviz.somzStepAmended
  simp only [harg]

/-- C7: training is deterministic given identical data and identical draw
streams from the seeded generator (numpy's `RandomState(seed)` yields the
same stream for the same seed): two runs produce identical weights, loss
histories and counters, in both training modes. -/
theorem fit_deterministic (g : Somviz.GridT) (N D maxiter : ℕ) (eta : ℝ)
    (data₁ data₂ randInit₁ randInit₂ : ℕ → ℕ → ℝ)
    (choice₁ choice₂ : ℕ → List ℕ)
    (hdata : data₁ = data₂) (hrand : randInit₁ = randInit₂)
    (hchoice : choice₁ = choice₂) :
    Somviz.fitSomz g N D maxiter data₁ randInit₁ choice₁ =
      Somviz.fitSomz g N D maxiter data₂ randInit₂ choice₂ ∧
    Somviz.fitModeA g N D maxiter eta data₁ randInit₁ choice₁ =
      Somviz.fitModeA g N D maxiter eta data₂ randInit₂ choice₂ := by
  subst hdata
  subst hrand
  subst hchoice
  exact ⟨rfl, rfl⟩

/-- Witness for C7 at concrete inputs: a 2-node ring, one 1-D sample, one
epoch, identical draw streams. -/
theorem fit_deterministic_witness :
    (fun (_ : ℕ) (_ : ℕ) => (0 : ℝ)) = (fun (_ : ℕ) (_ : ℕ) => (0 : ℝ)) ∧
    Somviz.fitSomz ⟨[2], [true], "L2"⟩ 1 1 1 (fun _ _ => 0) (fun _ _ => 0)
        (fun _ => [0]) =
      Somviz.fitSomz ⟨[2], [true], "L2"⟩ 1 1 1 (fun _ _ => 0) (fun _ _ => 0)
        (fun _ => [0]) ∧
    Somviz.fitModeA ⟨[2], [true], "L2"⟩ 1 1 1 (1 / 2) (fun _ _ => 0)
        (fun _ _ => 0) (fun _ => [0]) =
      Somviz.fitModeA ⟨[2], [true], "L2"⟩ 1 1 1 (1 / 2) (fun _ _ => 0)
        (fun _ _ => 0) (fun _ => [0]) :=
  ⟨rfl,
    (fit_deterministic ⟨[2], [true], "L2"⟩ 1 1 1 (1 / 2)
      (fun _ _ => 0) (fun _ _ => 0) (fun _ _ => 0) (fun _ _ => 0)
      (fun _ => [0]) (fun _ => [0]) rfl rfl rfl).1,
    (fit_deterministic ⟨[2], [true], "L2"⟩ 1 1 1 (1 / 2)
      (fun _ _ => 0) (fun _ _ => 0) (fun _ _ => 0) (fun _ _ => 0)
      (fun _ => [0]) (fun _ => [0]) rfl rfl rfl).2⟩

/-- C8: `fit` with `maxiter = 0` leaves the weights exactly at their
initialised values and produces a length-0 loss history, in both training
modes — the update rule is never invoked. -/
theorem fit_maxiter_zero (g : Somviz.GridT) (N D : ℕ) (eta : ℝ)
    (data randInit : ℕ → ℕ → ℝ) (choice : ℕ → List ℕ) :
    Somviz.fitSomz g N D 0 data randInit choice =
      (Somviz.somzInitW data randInit, [], 0) ∧
    Somviz.fitModeA g N D 0 eta data randInit choice =
      (Somviz.modeAInitW N data randInit, []) :=
  ⟨rfl, rfl⟩
